import Mathlib

/-!
Verification of the MoQ transport core (erikherz/moq-rs) against its
natural-language specification.  Each Rust function relevant to a claim is
shallowly embedded as an executable Lean definition; machine integers
(`u64`, `usize`) are modelled as `Nat` (all the modelled code paths only
compare, add one, or subtract with a guard, so no wrap-around is reachable),
fallible Rust functions returning `Result` become functions returning
`Except` (paired with the post-state where the Rust code mutates `&mut self`),
and byte buffers become `List Nat` with each element below 256.
-/

namespace MoqTransport

/-- The `setup::Role` enum.  Its defining file `setup/role.rs` is not present
under `src/`; the three variants are fixed by their uses in
`session.rs` (`Role::Both/Publisher/Subscriber`) and by the spec's handshake
table. -/
inductive Role where
  | publisher
  | subscriber
  | both
deriving DecidableEq, Repr, Fintype

/-- The variants of `SessionError` (src/moq-transport/src/session.rs and
src/moq-transport/src/session/subscriber.rs) that the embedded code paths can
produce.  `roleIncompatible` carries the peer's role then our role, exactly as
`SessionError::RoleIncompatible(server.role, role)` does; `outOfOrder` carries
the expected then the received object id, as
`SessionError::OutOfOrder(expected, chunk.object)` does. -/
inductive SessionError where
  | roleIncompatible (peer ours : Role)
  | version
  | roleViolation
  | outOfOrder (expected actual : Nat)
  | cache
deriving DecidableEq, Repr

/-- Role downgrade performed by `Session::connect_role`
(src/moq-transport/src/session.rs lines 72-87): `role` is the role we
requested, `server` is the role in the server's `SetupServer`. -/
def connect_role (role : Role) (server : Role) : Except SessionError Role :=
  match server with
  | .both => .ok role
  | .publisher =>
    match role with
    | .publisher => .error (.roleIncompatible server role)
    | _ => .ok .subscriber
  | .subscriber =>
    match role with
    | .subscriber => .error (.roleIncompatible server role)
    | _ => .ok .publisher

/-- Role downgrade performed by `Session::accept_role`
(src/moq-transport/src/session.rs lines 114-127): `role` is our configured
role, `client` is the role in the received `SetupClient`. -/
def accept_role (role : Role) (client : Role) : Except SessionError Role :=
  match client with
  | .both => .ok role
  | .publisher =>
    match role with
    | .publisher => .error (.roleIncompatible client role)
    | _ => .ok .subscriber
  | .subscriber =>
    match role with
    | .subscriber => .error (.roleIncompatible client role)
    | _ => .ok .publisher

/-- The downgrade table exactly as the specification states it (spec §4.4),
written as a second, spec-side definition to be compared with the two
source-side definitions above. -/
def specRoleDowngrade (ours : Role) (peer : Role) : Except SessionError Role :=
  match peer, ours with
  | .both, _ => .ok ours
  | .publisher, .both => .ok .subscriber
  | .publisher, .subscriber => .ok .subscriber
  | .publisher, .publisher => .error (.roleIncompatible .publisher .publisher)
  | .subscriber, .both => .ok .publisher
  | .subscriber, .publisher => .ok .publisher
  | .subscriber, .subscriber => .error (.roleIncompatible .subscriber .subscriber)

/-- C1: for every pair of negotiated roles, both `connect_role` and
`accept_role` follow the downgrade table: a peer role of Both keeps the local
role; peer Publisher with local Both or Subscriber yields Subscriber; peer
Subscriber with local Both or Publisher yields Publisher; and
Publisher/Publisher or Subscriber/Subscriber yields the `RoleIncompatible`
error instead of a session. -/
theorem handshake_role_downgrade_table :
    ∀ ours peer : Role,
      connect_role ours peer = specRoleDowngrade ours peer ∧
      accept_role ours peer = specRoleDowngrade ours peer := by
  intro ours peer
  cases ours <;> cases peer <;> exact ⟨rfl, rfl⟩

namespace Serve

/-- The `ServeError` enum of the serve module.  Its defining file
(serve/mod.rs) is absent from `src/`; the variants are modelled from the
spec's error taxonomy (§7) restricted to the ones the embedded serve-tree
code can produce: `Done` (benign drop), `Duplicate`, `Mode` (mode invariant
breach), `Size` (declared size mismatch), `Closed`, `NotFound`. -/
inductive ServeError where
  | done
  | closed
  | duplicate
  | mode
  | size
  | notFound
deriving DecidableEq, Repr

namespace Track

/-- The `StreamSubscriber` handle stored by the track cache.  Its defining
file is absent from `src/`; serve/track.rs only stores and clones it, so it
is modelled as its static info (the `send_order` passed to `create_stream`). -/
structure StreamSubscriber where
  send_order : Nat
deriving DecidableEq, Repr

/-- The `GroupSubscriber` handle stored by the track cache.  Its defining
file is absent from `src/`; serve/track.rs reads only its `id` field
(`old.id`, `group.id` in `State::insert_group`). -/
structure GroupSubscriber where
  id : Nat
deriving DecidableEq, Repr

/-- The `ObjectSubscriber` handle stored by the track cache.  Its defining
file is absent from `src/`; serve/track.rs reads its `group_id` and
`object_id` fields. -/
structure ObjectSubscriber where
  group_id : Nat
  object_id : Nat
deriving DecidableEq, Repr

/-- The `Datagram` info stored by the track cache (fields as read by
serve/track.rs `latest` and session/subscribed.rs `serve_datagram`). -/
structure Datagram where
  group_id : Nat
  object_id : Nat
  send_order : Nat
  payload : List Nat
deriving DecidableEq, Repr

/-- The `Cache` enum of serve/track.rs (lines 43-49): the mode cache of a
track. -/
inductive Cache where
  | init
  | stream (s : StreamSubscriber)
  | group (g : GroupSubscriber)
  | object (objects : List ObjectSubscriber)
  | datagram (d : Datagram)
deriving DecidableEq, Repr

/-- The variant family of a cache value, used to state the mode invariant. -/
inductive CacheFamily where
  | init
  | stream
  | group
  | object
  | datagram
deriving DecidableEq, Repr

def Cache.family : Cache → CacheFamily
  | .init => .init
  | .stream _ => .stream
  | .group _ => .group
  | .object _ => .object
  | .datagram _ => .datagram

/-- The `State` struct of serve/track.rs (lines 51-57). -/
structure State where
  cache : Cache
  epoch : Nat
  closed : Except ServeError Unit
deriving Repr

/-- `State::insert_group` (serve/track.rs lines 66-85).  The Rust method
mutates `&mut self` and returns `Result<(), ServeError>`; the embedding
returns the post-state paired with the result.  Every error return in the
source happens before any mutation, which the embedding mirrors by pairing
errors with the unchanged state. -/
def State.insert_group (s : State) (group : GroupSubscriber) :
    State × Except ServeError Unit :=
  match s.closed with
  | .error e => (s, .error e)
  | .ok _ =>
    match s.cache with
    | .init => ({ s with cache := .group group, epoch := s.epoch + 1 }, .ok ())
    | .group old =>
      if old.id = group.id then (s, .error .duplicate)
      else if old.id > group.id then (s, .ok ())
      else ({ s with cache := .group group, epoch := s.epoch + 1 }, .ok ())
    | _ => (s, .error .mode)

/-- `State::insert_object` (serve/track.rs lines 87-112).  In the
`Cache::Object` arm the source calls `objects.first().unwrap()`, which
panics on an empty vector; the embedding returns `none` there (the vector is
never empty in reachable states, see `insert_object_keeps_nonempty`). -/
def State.insert_object (s : State) (object : ObjectSubscriber) :
    Option (State × Except ServeError Unit) :=
  match s.closed with
  | .error e => some (s, .error e)
  | .ok _ =>
    match s.cache with
    | .init => some ({ s with cache := .object [object], epoch := s.epoch + 1 }, .ok ())
    | .object objects =>
      match objects with
      | [] => none
      | first :: _ =>
        if first.group_id > object.group_id then some (s, .ok ())
        else if first.group_id < object.group_id then
          some ({ s with cache := .object [object], epoch := s.epoch + 1 }, .ok ())
        else
          some ({ s with cache := .object (objects ++ [object]), epoch := s.epoch + 1 }, .ok ())
    | _ => some (s, .error .mode)

/-- `State::insert_datagram` (serve/track.rs lines 114-126). -/
def State.insert_datagram (s : State) (datagram : Datagram) :
    State × Except ServeError Unit :=
  match s.closed with
  | .error e => (s, .error e)
  | .ok _ =>
    match s.cache with
    | .init => ({ s with cache := .datagram datagram, epoch := s.epoch + 1 }, .ok ())
    | .datagram _ => ({ s with cache := .datagram datagram, epoch := s.epoch + 1 }, .ok ())
    | _ => (s, .error .mode)

/-- `State::set_stream` (serve/track.rs lines 128-140). -/
def State.set_stream (s : State) (stream : StreamSubscriber) :
    State × Except ServeError Unit :=
  match s.closed with
  | .error e => (s, .error e)
  | .ok _ =>
    match s.cache with
    | .init => ({ s with cache := .stream stream, epoch := s.epoch + 1 }, .ok ())
    | _ => (s, .error .mode)

/-- One track-writer operation.  The `TrackPublisher` methods `create_group`,
`write_object`, `create_object`, `create_stream` and `write_datagram`
(serve/track.rs lines 166-205) each delegate to exactly one `State` mutator
under the lock; the constructor names that mutator with its argument
(`write_object` and `create_object` both delegate to `insert_object`). -/
inductive WriterOp where
  | insertGroup (g : GroupSubscriber)
  | insertObject (o : ObjectSubscriber)
  | insertDatagram (d : Datagram)
  | setStream (st : StreamSubscriber)
deriving DecidableEq, Repr

/-- The cache-variant family an operation belongs to. -/
def WriterOp.family : WriterOp → CacheFamily
  | .insertGroup _ => .group
  | .insertObject _ => .object
  | .insertDatagram _ => .datagram
  | .setStream _ => .stream

/-- Apply one writer operation to the track state.  `none` is the (unreachable)
panic of `insert_object` on an empty object vector. -/
def State.apply (s : State) (op : WriterOp) : Option (State × Except ServeError Unit) :=
  match op with
  | .insertGroup g => some (s.insert_group g)
  | .insertObject o => s.insert_object o
  | .insertDatagram d => some (s.insert_datagram d)
  | .setStream st => some (s.set_stream st)

/-- Helper invariant: the object-mode vector never becomes empty. -/
theorem insert_object_keeps_nonempty (s : State) (op : WriterOp) (s' : State)
    (r : Except ServeError Unit)
    (hne : ∀ objects, s.cache = .object objects → objects ≠ [])
    (happ : s.apply op = some (s', r)) :
    ∀ objects, s'.cache = .object objects → objects ≠ [] := by
  intro objects hobj
  rcases op with g | o | d | st <;>
    simp only [State.apply, State.insert_group, State.insert_object,
      State.insert_datagram, State.set_stream, Option.some.injEq] at happ <;>
    (repeat' split at happ)
  all_goals
    first
      | exact Option.noConfusion happ
      | (simp only [Option.some.injEq, Prod.mk.injEq] at happ
         obtain ⟨h1, h2⟩ := happ
         subst h1
         first
           | exact hne objects hobj
           | (injection hobj with h3; subst h3; simp)
           | (injection hobj))


/-- C2: once the track's mode cache has left `Init` it stays within the same
variant family across every writer operation: an operation whose variant
differs from the current cache variant returns the `Mode` error and leaves
the state unchanged (provided the track is not already closed, in which case
every operation fails with the closing error before touching the cache),
while any operation that does produce a state keeps the cache's variant
family. -/
theorem mode_stays_in_family :
    ∀ (s : State) (op : WriterOp) (out : State × Except ServeError Unit),
      s.cache.family ≠ .init →
      (s.apply op = some out → out.1.cache.family = s.cache.family) ∧
      (op.family ≠ s.cache.family → s.closed = .ok () →
        s.apply op = some (s, .error .mode)) := by
  intro s op out hinit
  constructor
  · intro happ
    rcases op with g | o | d | st <;>
      simp only [State.apply, State.insert_group, State.insert_object,
        State.insert_datagram, State.set_stream, Option.some.injEq] at happ <;>
      (repeat' split at happ) <;>
      first
        | exact Option.noConfusion happ
        | ((try simp only [Option.some.injEq] at happ)
           subst happ
           simp_all [Cache.family])
  · intro hfam hcl
    rcases op with g | o | d | st <;>
      simp only [State.apply, State.insert_group, State.insert_object,
        State.insert_datagram, State.set_stream, hcl] <;>
      rcases hc : s.cache with _ | st' | g' | objs | d' <;>
      simp_all [Cache.family, WriterOp.family]

/-- Witness for C2: a track locked into Group mode refuses `create_stream`
with the `Mode` error and is left unchanged. -/
theorem mode_stays_in_family_witness :
    State.apply ⟨.group ⟨1⟩, 1, .ok ()⟩ (.setStream ⟨0⟩) =
      some (⟨.group ⟨1⟩, 1, .ok ()⟩, .error .mode) :=
  (mode_stays_in_family ⟨.group ⟨1⟩, 1, .ok ()⟩ (.setStream ⟨0⟩)
      (⟨.group ⟨1⟩, 1, .ok ()⟩, .error .mode) (by decide)).2 (by decide) rfl

/-- C4: in Group mode, `create_group` (via `State::insert_group`) fails with
`Duplicate` when the new id equals the cached latest id, silently succeeds
without touching cache or epoch when the new id is smaller, and otherwise
installs the new group and increments the epoch by exactly one. -/
theorem create_group_latest_wins :
    ∀ (s : State) (old g : GroupSubscriber),
      s.cache = .group old → s.closed = .ok () →
      (g.id = old.id → s.insert_group g = (s, .error .duplicate)) ∧
      (g.id < old.id → s.insert_group g = (s, .ok ())) ∧
      (old.id < g.id →
        s.insert_group g =
          ({ s with cache := .group g, epoch := s.epoch + 1 }, .ok ())) := by
  intro s old g hc hcl
  refine ⟨?_, ?_, ?_⟩ <;> intro h <;>
    simp only [State.insert_group, hcl, hc] <;>
    split_ifs <;> first | rfl | omega

/-- Witness for C4: inserting group id 7 over cached latest id 5 replaces the
cache and bumps the epoch from 2 to 3. -/
theorem create_group_latest_wins_witness :
    State.insert_group ⟨.group ⟨5⟩, 2, .ok ()⟩ ⟨7⟩ =
      (⟨.group ⟨7⟩, 3, .ok ()⟩, .ok ()) :=
  (create_group_latest_wins ⟨.group ⟨5⟩, 2, .ok ()⟩ ⟨5⟩ ⟨7⟩ rfl rfl).2.2 (by decide)

/-- Helper invariant: the object-mode vector never outgrows the epoch (each
cached object contributed one epoch increment), which keeps the epoch
arithmetic of `TrackSubscriber::next` free of `usize` underflow. -/
theorem insert_object_keeps_length_le_epoch (s : State) (op : WriterOp)
    (s' : State) (r : Except ServeError Unit)
    (hinv : ∀ objects, s.cache = .object objects → objects.length ≤ s.epoch)
    (happ : s.apply op = some (s', r)) :
    ∀ objects, s'.cache = .object objects → objects.length ≤ s'.epoch := by
  intro objects hobj
  rcases op with g | o | d | st <;>
    simp only [State.apply, State.insert_group, State.insert_object,
      State.insert_datagram, State.set_stream, Option.some.injEq] at happ <;>
    (repeat' split at happ) <;>
    first
      | exact Option.noConfusion happ
      | ((try simp only [Option.some.injEq, Prod.mk.injEq] at happ)
         obtain ⟨h1, h2⟩ := happ
         subst h1
         (try dsimp only at hobj ⊢)
         first
           | exact hinv objects hobj
           | (injection hobj with h3
              subst h3
              first
                | (have hh := hinv _ (by assumption)
                   simp only [List.length_cons, List.length_append,
                     List.length_nil] at hh ⊢
                   omega)
                | (simp only [List.length_cons, List.length_nil]; omega))
           | (injection hobj))

/-- The `TrackMode` enum (serve/track.rs lines 330-335): the event returned
by `TrackSubscriber::next`. -/
inductive TrackMode where
  | stream (s : StreamSubscriber)
  | group (g : GroupSubscriber)
  | object (o : ObjectSubscriber)
  | datagram (d : Datagram)
deriving DecidableEq, Repr

/-- Outcome of one pass of the locked section of `TrackSubscriber::next`:
`event m e` is `return Ok(Some(m))` with the reader's epoch updated to `e`;
`finished` is `return Ok(None)`; `failed` is `return Err(..)`; `pending`
models taking `state.changed()` and awaiting it; `outOfBounds` models the
panic of the `objects[index]` indexing. -/
inductive NextOutcome where
  | event (m : TrackMode) (readerEpoch : Nat)
  | finished
  | failed (e : ServeError)
  | pending
  | outOfBounds
deriving DecidableEq, Repr

/-- The closed-check at the bottom of the locked section of
`TrackSubscriber::next` (serve/track.rs lines 283-287). -/
def State.closedOutcome (s : State) : NextOutcome :=
  match s.closed with
  | .ok _ => .pending
  | .error .done => .finished
  | .error e => .failed e

/-- One pass of the locked section of `TrackSubscriber::next`
(serve/track.rs lines 254-292) against state `s`, where `readerEpoch` is the
reader's last-seen epoch.  `objects.len().saturating_sub(..)` is exactly
truncating `Nat` subtraction; the `state.epoch - objects.len() + index + 1`
epoch update uses panicking `usize` subtraction, which agrees with `Nat`
subtraction whenever `objects.len() ≤ state.epoch` (assumed by the theorem
below, and true of every reachable state since each cached object
contributed one epoch increment). -/
def State.next_step (s : State) (readerEpoch : Nat) : NextOutcome :=
  if readerEpoch ≠ s.epoch then
    match s.cache with
    | .init => s.closedOutcome
    | .stream stream => .event (.stream stream) s.epoch
    | .group group => .event (.group group) s.epoch
    | .object objects =>
      let index := objects.length - (s.epoch - readerEpoch)
      match objects[index]? with
      | some o => .event (.object o) (s.epoch - objects.length + index + 1)
      | none => .outOfBounds
    | .datagram datagram => .event (.datagram datagram) s.epoch
  else s.closedOutcome

/-- Iterate `next_step` against a fixed state, collecting the Object events
a reader observes (the fuel bounds the number of calls). -/
def State.walk (s : State) : Nat → Nat → List ObjectSubscriber
  | 0, _ => []
  | fuel + 1, readerEpoch =>
    match s.next_step readerEpoch with
    | .event (.object o) nextEpoch => o :: s.walk fuel nextEpoch
    | _ => []

/-- Single-step characterisation of `next_step` in Object mode. -/
theorem next_step_object (s : State) (objects : List ObjectSubscriber) (r : Nat)
    (hc : s.cache = .object objects) (hr : r < s.epoch)
    (_hlen : objects.length ≤ s.epoch) (hne : objects ≠ []) :
    ∃ h : objects.length - (s.epoch - r) < objects.length,
      s.next_step r =
        .event (.object (objects.get ⟨objects.length - (s.epoch - r), h⟩))
          (s.epoch - objects.length + (objects.length - (s.epoch - r)) + 1) := by
  have h0 : 0 < objects.length := List.length_pos.mpr hne
  have hlt : objects.length - (s.epoch - r) < objects.length := by omega
  refine ⟨hlt, ?_⟩
  simp only [State.next_step, hc]
  rw [if_pos (show r ≠ s.epoch by omega)]
  simp only [List.getElem?_eq_getElem hlt, List.get_eq_getElem]

/-- Starting exactly `k` events behind, a reader walks the last `k` cached
objects in order. -/
theorem walk_drop (s : State) (objects : List ObjectSubscriber)
    (hc : s.cache = .object objects) (hlen : objects.length ≤ s.epoch) :
    ∀ k, k ≤ objects.length →
      s.walk k (s.epoch - k) = objects.drop (objects.length - k) := by
  intro k
  induction k with
  | zero => intro _; simp [State.walk]
  | succ m ih =>
    intro hk
    have hne : objects ≠ [] := by
      intro hnil
      rw [hnil] at hk
      simp at hk
    obtain ⟨hlt, hstep⟩ :=
      next_step_object s objects (s.epoch - (m + 1)) hc (by omega) hlen hne
    have hlt' : objects.length - (m + 1) < objects.length := by omega
    have hfin : (⟨objects.length - (s.epoch - (s.epoch - (m + 1))), hlt⟩ :
        Fin objects.length) = ⟨objects.length - (m + 1), hlt'⟩ := by
      apply Fin.ext
      show objects.length - (s.epoch - (s.epoch - (m + 1))) = objects.length - (m + 1)
      omega
    rw [hfin] at hstep
    have hep : s.epoch - objects.length +
        (objects.length - (s.epoch - (s.epoch - (m + 1)))) + 1 = s.epoch - m := by
      omega
    rw [hep] at hstep
    simp only [State.walk]
    rw [hstep]
    dsimp only
    rw [ih (by omega)]
    rw [List.drop_eq_getElem_cons hlt' (l := objects)]
    rw [show objects.length - (m + 1) + 1 = objects.length - m by omega]
    simp only [List.get_eq_getElem]

/-- C7: in Object mode, a reader whose last-seen epoch lags the state epoch
is served the object at index `len - (epoch - last_seen)` of the object
vector, computed with saturating subtraction (index 0 when it fell behind by
`len` or more), with its epoch updated to `epoch - len + index + 1`; from
there successive calls walk the remaining tail of the vector in order, so a
slow reader sees exactly the recent bounded tail. -/
theorem object_reader_recent_tail :
    ∀ (s : State) (objects : List ObjectSubscriber) (r : Nat),
      s.cache = .object objects → r < s.epoch → objects.length ≤ s.epoch →
      objects ≠ [] →
      (objects.length ≤ s.epoch - r → objects.length - (s.epoch - r) = 0) ∧
      (∃ h : objects.length - (s.epoch - r) < objects.length,
        s.next_step r =
          .event (.object (objects.get ⟨objects.length - (s.epoch - r), h⟩))
            (s.epoch - objects.length + (objects.length - (s.epoch - r)) + 1)) ∧
      s.walk (objects.length - (objects.length - (s.epoch - r))) r =
        objects.drop (objects.length - (s.epoch - r)) := by
  intro s objects r hc hr hlen hne
  obtain ⟨hlt, hstep⟩ := next_step_object s objects r hc hr hlen hne
  refine ⟨by omega, ⟨hlt, hstep⟩, ?_⟩
  obtain ⟨m, hm⟩ : ∃ m,
      objects.length - (objects.length - (s.epoch - r)) = m + 1 :=
    ⟨objects.length - (objects.length - (s.epoch - r)) - 1, by omega⟩
  rw [hm]
  simp only [State.walk]
  rw [hstep]
  have hep : s.epoch - objects.length +
      (objects.length - (s.epoch - r)) + 1 = s.epoch - m := by omega
  rw [hep]
  dsimp only
  rw [walk_drop s objects hc hlen m (by omega)]
  have hm' : objects.length - m = objects.length - (s.epoch - r) + 1 := by omega
  rw [hm']
  have hcons := List.drop_eq_getElem_cons hlt (l := objects)
  simp only [List.get_eq_getElem]
  exact hcons.symm

/-- Witness for C7: with three cached objects at state epoch 5, a reader at
epoch 3 (two events behind) is served the object at index 1 and resumes at
epoch 4. -/
theorem object_reader_recent_tail_witness :
    State.next_step ⟨.object [⟨1, 0⟩, ⟨1, 1⟩, ⟨1, 2⟩], 5, .ok ()⟩ 3 =
      .event (.object ⟨1, 1⟩) 4 := by
  obtain ⟨-, ⟨h, hstep⟩, -⟩ :=
    object_reader_recent_tail ⟨.object [⟨1, 0⟩, ⟨1, 1⟩, ⟨1, 2⟩], 5, .ok ()⟩
      [⟨1, 0⟩, ⟨1, 1⟩, ⟨1, 2⟩] 3 rfl (by decide) (by decide) (by decide)
  exact hstep

end Track

/-- `StreamObjectState` (serve/stream.rs lines 353-367): the chunks received
so far and the close flag.  `Bytes` buffers are `List Nat`. -/
structure StreamObjectState where
  chunks : List (List Nat)
  closed : Except ServeError Unit
deriving Repr

/-- The mutable field of `StreamObjectWriter` (serve/stream.rs lines
380-389): `remain`, the amount of promised data yet to be written.  The
shared `State<StreamObjectState>` cell is passed to the operations
explicitly. -/
structure StreamObjectWriter where
  remain : Nat
deriving DecidableEq, Repr

/-- `StreamObjectWriter::new` (serve/stream.rs lines 393-399): `remain`
starts at the object's declared size. -/
def StreamObjectWriter.new (size : Nat) : StreamObjectWriter := ⟨size⟩

/-- `StreamObjectWriter::write` (serve/stream.rs lines 402-412).  `writable`
models whether `state.lock_mut()` returns `Some` (the `util::State` lock
primitive is absent from `src/`; per spec §4.1 a write-lock fails once the
cell is terminated).  Note the source decrements `remain` before taking the
lock, which the embedding preserves. -/
def StreamObjectWriter.write (w : StreamObjectWriter) (st : StreamObjectState)
    (writable : Bool) (chunk : List Nat) :
    (StreamObjectWriter × StreamObjectState) × Except ServeError Unit :=
  if chunk.length > w.remain then ((w, st), .error .size)
  else
    let w := { w with remain := w.remain - chunk.length }
    if writable then ((w, { st with chunks := st.chunks ++ [chunk] }), .ok ())
    else ((w, st), .error .done)

/-- The `Drop` handler of `StreamObjectWriter` (serve/stream.rs lines
423-439): if `remain` is zero it does nothing; otherwise, unless the state
is already closed with an error, it closes the state with `Size` (when the
`into_mut` write upgrade is available, modelled by `writable`). -/
def StreamObjectWriter.drop (w : StreamObjectWriter) (st : StreamObjectState)
    (writable : Bool) : StreamObjectState :=
  if w.remain = 0 then st
  else
    match st.closed with
    | .error _ => st
    | .ok _ => if writable then { st with closed := .error .size } else st

/-- C5: a write longer than the remaining declared size fails with `Size`
and changes nothing; dropping the writer with bytes still owed closes the
state with `Size` unless it was already closed with some error; dropping it
with `remain = 0` (in particular a fresh writer of declared size 0) leaves
the state untouched, so no size error is recorded. -/
theorem object_writer_size_discipline :
    ∀ (w : StreamObjectWriter) (st : StreamObjectState) (writable : Bool)
      (chunk : List Nat),
      (w.remain < chunk.length →
        w.write st writable chunk = ((w, st), .error .size)) ∧
      (0 < w.remain → st.closed = .ok () →
        w.drop st true = { st with closed := .error .size }) ∧
      (∀ e, 0 < w.remain → st.closed = .error e → w.drop st writable = st) ∧
      (w.remain = 0 → w.drop st writable = st) := by
  intro w st writable chunk
  refine ⟨?_, ?_, ?_, ?_⟩
  · intro h
    simp only [StreamObjectWriter.write]
    rw [if_pos (by omega)]
  · intro h hcl
    simp only [StreamObjectWriter.drop, hcl]
    rw [if_neg (by omega)]
    simp
  · intro e h hcl
    simp only [StreamObjectWriter.drop, hcl]
    rw [if_neg (by omega)]
  · intro h
    simp only [StreamObjectWriter.drop]
    rw [if_pos h]

/-- Witness for C5: a fresh writer of declared size 0 is dropped with no
chunks written and records no size error. -/
theorem object_writer_size_discipline_witness :
    (StreamObjectWriter.new 0).drop ⟨[], .ok ()⟩ true = ⟨[], .ok ()⟩ :=
  (object_writer_size_discipline (StreamObjectWriter.new 0) ⟨[], .ok ()⟩
    true []).2.2.2 rfl

/-- The static info of a `StreamObject` (serve/stream.rs lines 322-331)
without the `Arc<StreamGroup>` back-pointer: its object id and declared
size. -/
structure StreamObjectInfo where
  object_id : Nat
  size : Nat
deriving DecidableEq, Repr

/-- `StreamGroupState` (serve/stream.rs lines 200-214): the objects received
so far (readers are identified by their static info). -/
structure StreamGroupState where
  objects : List StreamObjectInfo
  closed : Except ServeError Unit
deriving Repr

/-- The mutable field of `StreamGroupWriter` (serve/stream.rs lines
216-221): `next`, the object id used for the next created object. -/
structure StreamGroupWriter where
  next : Nat
deriving DecidableEq, Repr

/-- `StreamGroupWriter::new` (serve/stream.rs lines 223-226): `next` starts
at 0. -/
def StreamGroupWriter.new : StreamGroupWriter := ⟨0⟩

/-- `StreamGroupWriter::create` (serve/stream.rs lines 235-248): under the
lock (`writable`, as above) it produces a `StreamObject` with
`object_id: self.next`, pushes its reader onto the group state, and returns
its writer (represented by the created object's info).  The source never
modifies `self.next`, which the embedding preserves by returning `w`
unchanged. -/
def StreamGroupWriter.create (w : StreamGroupWriter) (st : StreamGroupState)
    (writable : Bool) (size : Nat) :
    (StreamGroupWriter × StreamGroupState) × Except ServeError StreamObjectInfo :=
  if writable then
    ((w, { st with objects := st.objects ++ [⟨w.next, size⟩] }),
      .ok ⟨w.next, size⟩)
  else ((w, st), .error .done)

/-- C8 evaluated on the code: two consecutive `create` calls on a fresh
group writer both append `object_id` 0 — `next` is never incremented — so
the appended ids are not strictly increasing. -/
theorem stream_group_create_repeats_object_id :
    (((StreamGroupWriter.new.create ⟨[], .ok ()⟩ true 3).1.1.create
        (StreamGroupWriter.new.create ⟨[], .ok ()⟩ true 3).1.2 true
        4).1.2.objects.map StreamObjectInfo.object_id) = [0, 0] := rfl

/-- Outcome of one pass of `StreamGroupReader::next` (serve/stream.rs lines
287-305): `object o i` is `return Ok(Some(o))` with the cursor updated to
`i`; `failed` is the `state.closed.clone()?` error return; `finished` is
`return Ok(None)` when `state.modified()` yields `None`; `pending` models
awaiting the notify; `outOfBounds` is the panic of `state.objects[index]`. -/
inductive GroupReadOutcome where
  | object (o : StreamObjectInfo) (nextIndex : Nat)
  | finished
  | failed (e : ServeError)
  | pending
  | outOfBounds
deriving DecidableEq, Repr

/-- One pass of `StreamGroupReader::next` (serve/stream.rs lines 287-305)
with cursor `index`.  The source increments `self.index` first and then
indexes `state.objects[self.index]` with the already-incremented cursor.
`writerAlive` models whether `state.modified()` returns a notify
(per spec §4.1 it returns `None` once all writers dropped). -/
def StreamGroupReader.next_step (st : StreamGroupState) (index : Nat)
    (writerAlive : Bool) : GroupReadOutcome :=
  if index < st.objects.length then
    let index := index + 1
    match st.objects[index]? with
    | some o => .object o index
    | none => .outOfBounds
  else
    match st.closed with
    | .error e => .failed e
    | .ok _ => if writerAlive then .pending else .finished

/-- C9 evaluated on the code: with one appended object and a fresh cursor,
`next` panics (indexes one past the end); with two appended objects it
returns the second, silently skipping the first. -/
theorem stream_group_reader_skips_and_overruns :
    StreamGroupReader.next_step ⟨[⟨0, 5⟩], .ok ()⟩ 0 true = .outOfBounds ∧
    StreamGroupReader.next_step ⟨[⟨0, 5⟩, ⟨0, 7⟩], .ok ()⟩ 0 true =
      .object ⟨0, 7⟩ 1 := ⟨rfl, rfl⟩

end Serve

namespace VarInt

/-- `VarInt::decode` (coding/varint.rs lines 142-170) over a byte list: the
two top bits of the first byte select a 1/2/4/8-byte big-endian encoding of
the remaining 6/14/30/62 bits.  `b0 / 2^6` is `buf[0] >> 6` and `b0 % 2^6`
is `buf[0] &= 0b0011_1111`; `u16/u32/u64::from_be_bytes` become the
explicit base-256 sums.  Reads past the end of the list yield `none`
(`read_exact` failing); a first byte of 256 or more cannot arise from a
`u8`, and the model maps it to `none` (the source marks tags above 3
`unreachable!`). -/
def decode : List Nat → Option (Nat × List Nat)
  | [] => none
  | b0 :: rest =>
    match b0 / 2^6 with
    | 0 => some (b0 % 2^6, rest)
    | 1 =>
      match rest with
      | b1 :: rest => some (b0 % 2^6 * 2^8 + b1, rest)
      | [] => none
    | 2 =>
      match rest with
      | b1 :: b2 :: b3 :: rest =>
        some (b0 % 2^6 * 2^24 + b1 * 2^16 + b2 * 2^8 + b3, rest)
      | _ => none
    | 3 =>
      match rest with
      | b1 :: b2 :: b3 :: b4 :: b5 :: b6 :: b7 :: rest =>
        some (b0 % 2^6 * 2^56 + b1 * 2^48 + b2 * 2^40 + b3 * 2^32 +
          b4 * 2^24 + b5 * 2^16 + b6 * 2^8 + b7, rest)
      | _ => none
    | _ => none

/-- `VarInt::encode` (coding/varint.rs lines 172-190) as the byte list it
writes.  The source writes `x as u8`, `(0b01 << 14 | x) as u16`,
`(0b10 << 30 | x) as u32`, `(0b11 << 62 | x) as u64` big-endian; since each
branch has `x` below the tag capacity, the or-ed tag lands in the top two
bits of the leading byte and the big-endian bytes are exactly the base-256
digits written here (e.g. `(2^14 + x) / 2^8 = 2^6 + x / 2^8` and
`(2^14 + x) % 2^8 = x % 2^8` for `x < 2^14`).  Values of `2^62` or more hit
the `anyhow::bail!` branch, modelled as `none`. -/
def encode (x : Nat) : Option (List Nat) :=
  if x < 2^6 then some [x]
  else if x < 2^14 then some [2^6 + x / 2^8, x % 2^8]
  else if x < 2^30 then some [2^7 + x / 2^24, x / 2^16 % 2^8, x / 2^8 % 2^8,
    x % 2^8]
  else if x < 2^62 then some [192 + x / 2^56, x / 2^48 % 2^8, x / 2^40 % 2^8,
    x / 2^32 % 2^8, x / 2^24 % 2^8, x / 2^16 % 2^8, x / 2^8 % 2^8, x % 2^8]
  else none

/-- The four wire formats accepted by `VarInt::decode`, indexed by the
two-bit tag `t`: `tagged t v` is the `2^t`-byte big-endian encoding of `v`
under tag `t`, meaningful for `v` below the tag's capacity
(2^6, 2^14, 2^30, 2^62). -/
def tagged : Nat → Nat → List Nat
  | 0, v => [v]
  | 1, v => [2^6 + v / 2^8, v % 2^8]
  | 2, v => [2^7 + v / 2^24, v / 2^16 % 2^8, v / 2^8 % 2^8, v % 2^8]
  | _, v => [192 + v / 2^56, v / 2^48 % 2^8, v / 2^40 % 2^8, v / 2^32 % 2^8,
    v / 2^24 % 2^8, v / 2^16 % 2^8, v / 2^8 % 2^8, v % 2^8]

theorem decode_tagged0 (v : Nat) (h : v < 2^6) :
    decode (tagged 0 v) = some (v, []) := by
  show decode [v] = some (v, [])
  have h1 : v / 2^6 = 0 := by omega
  simp only [decode, h1]
  have h2 : v % 2^6 = v := by omega
  rw [h2]

theorem decode_tagged1 (v : Nat) (h : v < 2^14) :
    decode (tagged 1 v) = some (v, []) := by
  show decode [2^6 + v / 2^8, v % 2^8] = some (v, [])
  have h1 : (2^6 + v / 2^8) / 2^6 = 1 := by omega
  simp only [decode, h1]
  have h2 : (2^6 + v / 2^8) % 2^6 = v / 2^8 := by omega
  rw [h2]
  have h3 : v / 2^8 * 2^8 + v % 2^8 = v := by omega
  rw [h3]

theorem decode_tagged2 (v : Nat) (h : v < 2^30) :
    decode (tagged 2 v) = some (v, []) := by
  show decode [2^7 + v / 2^24, v / 2^16 % 2^8, v / 2^8 % 2^8, v % 2^8] =
    some (v, [])
  have h1 : (2^7 + v / 2^24) / 2^6 = 2 := by omega
  simp only [decode, h1]
  have h2 : (2^7 + v / 2^24) % 2^6 = v / 2^24 := by omega
  rw [h2]
  have h3 : v / 2^24 * 2^24 + v / 2^16 % 2^8 * 2^16 + v / 2^8 % 2^8 * 2^8 +
      v % 2^8 = v := by omega
  rw [h3]

theorem decode_tagged3 (v : Nat) (h : v < 2^62) :
    decode (tagged 3 v) = some (v, []) := by
  show decode [192 + v / 2^56, v / 2^48 % 2^8, v / 2^40 % 2^8, v / 2^32 % 2^8,
    v / 2^24 % 2^8, v / 2^16 % 2^8, v / 2^8 % 2^8, v % 2^8] = some (v, [])
  have h1 : (192 + v / 2^56) / 2^6 = 3 := by omega
  simp only [decode, h1]
  have h2 : (192 + v / 2^56) % 2^6 = v / 2^56 := by omega
  rw [h2]
  have h3 : v / 2^56 * 2^56 + v / 2^48 % 2^8 * 2^48 + v / 2^40 % 2^8 * 2^40 +
      v / 2^32 % 2^8 * 2^32 + v / 2^24 % 2^8 * 2^24 + v / 2^16 % 2^8 * 2^16 +
      v / 2^8 % 2^8 * 2^8 + v % 2^8 = v := by omega
  rw [h3]

/-- C3: every varint below 2^62 round-trips through encode then decode;
encoding 2^62 or more is rejected; the encoding is minimal-length at the
2^6 / 2^14 / 2^30 boundaries (1, 2, 4, 8 bytes respectively); and decode
accepts each of the four tag-selected lengths for any value that fits. -/
theorem varint_roundtrip_minimal :
    ∀ v : Nat,
      (v < 2^62 → ∃ bs, encode v = some bs ∧ decode bs = some (v, []) ∧
        bs.length = (if v < 2^6 then 1 else if v < 2^14 then 2
          else if v < 2^30 then 4 else 8)) ∧
      (2^62 ≤ v → encode v = none) ∧
      (v < 2^6 → decode (tagged 0 v) = some (v, [])) ∧
      (v < 2^14 → decode (tagged 1 v) = some (v, [])) ∧
      (v < 2^30 → decode (tagged 2 v) = some (v, [])) ∧
      (v < 2^62 → decode (tagged 3 v) = some (v, [])) := by
  intro v
  refine ⟨?_, ?_, decode_tagged0 v, decode_tagged1 v, decode_tagged2 v,
    decode_tagged3 v⟩
  · intro h62
    by_cases h6 : v < 2^6
    · refine ⟨tagged 0 v, ?_, decode_tagged0 v h6, ?_⟩
      · simp only [encode]
        rw [if_pos h6]
        rfl
      · rw [if_pos h6]
        rfl
    by_cases h14 : v < 2^14
    · refine ⟨tagged 1 v, ?_, decode_tagged1 v h14, ?_⟩
      · simp only [encode]
        rw [if_neg h6, if_pos h14]
        rfl
      · rw [if_neg h6, if_pos h14]
        rfl
    by_cases h30 : v < 2^30
    · refine ⟨tagged 2 v, ?_, decode_tagged2 v h30, ?_⟩
      · simp only [encode]
        rw [if_neg h6, if_neg h14, if_pos h30]
        rfl
      · rw [if_neg h6, if_neg h14, if_pos h30]
        rfl
    · refine ⟨tagged 3 v, ?_, decode_tagged3 v h62, ?_⟩
      · simp only [encode]
        rw [if_neg h6, if_neg h14, if_neg h30, if_pos h62]
        rfl
      · rw [if_neg h6, if_neg h14, if_neg h30]
        rfl
  · intro h
    simp only [encode]
    rw [if_neg (by omega), if_neg (by omega), if_neg (by omega),
      if_neg (by omega)]

/-- Witness for C3: 300 encodes to two bytes that decode back to 300; 2^62
is rejected; and the non-minimal two-byte form of 63 still decodes. -/
theorem varint_roundtrip_minimal_witness :
    (∃ bs, encode 300 = some bs ∧ decode bs = some (300, []) ∧ bs.length = 2) ∧
    encode (2^62) = none ∧
    decode (tagged 1 63) = some (63, []) := by
  refine ⟨?_, ?_, ?_⟩
  · obtain ⟨bs, hbs, hdec, hlen⟩ := (varint_roundtrip_minimal 300).1 (by decide)
    refine ⟨bs, hbs, hdec, ?_⟩
    rw [hlen]
    decide
  · exact (varint_roundtrip_minimal (2^62)).2.1 (by norm_num)
  · exact (varint_roundtrip_minimal 63).2.2.2.1 (by decide)

end VarInt

namespace Subscriber

/-- A decoded `object::GroupChunk` as consumed by `Subscriber::run_group`
(session/subscriber.rs).  The `object` module that defines it is absent from
`src/`; the two fields are fixed by their uses (`chunk.object`,
`chunk.size`), both `VarInt`. -/
structure GroupChunk where
  object : Nat
  size : Nat
deriving DecidableEq, Repr

/-- The object-id acceptance loop of `Subscriber::run_group`
(session/subscriber.rs lines 180-216) applied to the sequence of chunks
decoded from a group-mode data stream, starting from
`let mut expected = 0`.  For each chunk the source rejects
`chunk.object != expected` with `OutOfOrder(expected, chunk.object)` and
then assigns `expected = chunk.object.into_inner()` — with no increment —
before consuming the chunk's payload. -/
def run_group_check (expected : Nat) : List GroupChunk → Except SessionError Unit
  | [] => .ok ()
  | chunk :: rest =>
    if chunk.object ≠ expected then .error (.outOfOrder expected chunk.object)
    else run_group_check chunk.object rest

/-- C6 evaluated on the code: a group stream whose chunks carry object ids
0 then 1 is rejected with `OutOfOrder(0, 1)` (the expectation never
advances), while ids 0 then 0 are accepted — the exact opposite of the
strictly-incrementing 0, 1, 2, ... acceptance the claim states. -/
theorem run_group_rejects_increment_accepts_repeat :
    run_group_check 0 [⟨0, 5⟩, ⟨1, 5⟩] = .error (.outOfOrder 0 1) ∧
    run_group_check 0 [⟨0, 5⟩, ⟨0, 5⟩] = .ok () := ⟨rfl, rfl⟩

end Subscriber

namespace Subscribed

/-- The `State` struct of session/subscribed.rs (lines 200-207) without the
back-pointer to the session: whether `SubscribeOk` was sent, the maximum
group/object pair, and the close flag. -/
structure State where
  ok : Bool
  max : Option (Nat × Nat)
  closed : Except Serve.ServeError Unit
deriving Repr

/-- `State::update_max` (session/subscribed.rs lines 264-274): fails with
the closing error if closed; otherwise raises `max` when both components
are at least the current maximum (and leaves a `None` max untouched). -/
def State.update_max (s : State) (group_id object_id : Nat) :
    State × Except Serve.ServeError Unit :=
  match s.closed with
  | .error e => (s, .error e)
  | .ok _ =>
    match s.max with
    | some (max_group, max_object) =>
      if group_id ≥ max_group ∧ object_id ≥ max_object then
        ({ s with max := some (group_id, object_id) }, .ok ())
      else (s, .ok ())
    | none => (s, .ok ())

/-- The wire form a datagram is encoded into by `serve_datagram`.  The
`data` module defining `data::Datagram` and its `encode` is absent from
`src/`; per the construction in session/subscribed.rs lines 148-155 it
carries the subscription's id and track alias plus the serve datagram's
group id, object id, send order and payload. -/
structure DatagramWire where
  subscribe_id : Nat
  track_alias : Nat
  group_id : Nat
  object_id : Nat
  send_order : Nat
  payload : List Nat
deriving DecidableEq, Repr

/-- `Subscribed::serve_datagram` (session/subscribed.rs lines 147-168) for a
subscription with control-message id `msg_id` and alias `msg_track_alias`.
The result carries the post-state, the encoded buffer the source builds,
and the list of datagrams actually handed to the transport.  The
`send_datagram` call is commented out in the source (lines 160-161,
`// TODO send the datagram`), so that list is empty on every path. -/
def serve_datagram (st : State) (msg_id msg_track_alias : Nat)
    (datagram : Serve.Track.Datagram) :
    (State × DatagramWire × List DatagramWire) × Except Serve.ServeError Unit :=
  let buffer : DatagramWire :=
    ⟨msg_id, msg_track_alias, datagram.group_id, datagram.object_id,
      datagram.send_order, datagram.payload⟩
  let stepped := st.update_max datagram.group_id datagram.object_id
  ((stepped.1, buffer, []), stepped.2)

/-- C10 evaluated on the code: no served datagram event is ever transmitted —
`serve_datagram` encodes the datagram and updates the max state, but the
list of datagrams handed to the transport's `send_datagram` is empty for
every subscription state and every datagram, contradicting the claim that
each served event results in an actual transmission. -/
theorem serve_datagram_transmits_nothing :
    ∀ (st : State) (msg_id msg_track_alias : Nat)
      (datagram : Serve.Track.Datagram),
      (serve_datagram st msg_id msg_track_alias datagram).1.2.2 = [] := by
  intro st msg_id msg_track_alias datagram
  rfl

end Subscribed

end MoqTransport
